import Mathlib

/-!
Verification development for the Task-App-Refactored-Custom-Auth repository.

The session-token authentication core and the ownership-scoped task access
layer are embedded shallowly: Mongo collections become Lean lists of records,
Mongo query objects become option-field structures, and the stateful service
methods become functions threading the collection value. External
collaborators (the jsonwebtoken library, bcrypt, S3/sharp) are modelled by
small idealized executable functions, each marked in its doc comment; all
repository and service logic is translated line by line from the source
files under `src/`.
-/

/-- Document/principal identifiers (Mongo ObjectIds rendered as strings). -/
abbrev DocId := String

/-- The JWT signing secret (`process.env.JWT_SECRET`). -/
abbrev Secret := String

/-- Modelled collaborator: a bearer-token string as produced/consumed by the
`jsonwebtoken` library. `signed secret sub iat` stands for the string
`jwt.sign({ _id: sub }, secret)` produced at issued-at time `iat` (the `iat`
claim is why two tokens issued to the same principal are distinct strings);
`garbage` stands for any string that is not a well-formed token signed with
any secret; `empty` is the empty string that `stripBearerToken` installs
when no Authorization header is present. -/
inductive Token where
  | empty : Token
  | signed (secret : Secret) (sub : DocId) (iat : Nat) : Token
  | garbage (raw : String) : Token
deriving DecidableEq, Repr

/-- Modelled collaborator: `jwt.sign({ _id: id.toString() }, secret)` at
issued-at time `iat` (idealized: signatures are collision-free). -/
def jwtSign (secret : Secret) (sub : DocId) (iat : Nat) : Token :=
  Token.signed secret sub iat

/-- Modelled collaborator: `jwt.verify(token, secret)`. `none` models the
library throwing: on the empty string (`jwt must be provided`, raised before
any signature check), on malformed input, and on a signature made with a
different secret. No expiry is enforced, so the `iat` claim is ignored. -/
def jwtVerify (secret : Secret) : Token → Option DocId
  | Token.signed s sub _ => if s = secret then some sub else none
  | _ => none

/-- `AuthenticationService.generateAuthToken` (src/services/AuthenticationService.js);
`iat` is the issue time the jwt library stamps into the token. -/
def AuthenticationService.generateAuthToken (secret : Secret) (id : DocId) (iat : Nat) : Token :=
  jwtSign secret id iat

/-- `AuthenticationService.verifyAuthToken` (src/services/AuthenticationService.js). -/
def AuthenticationService.verifyAuthToken (secret : Secret) (token : Token) : Option DocId :=
  jwtVerify secret token

/-- `stripBearerToken` middleware (src/api/middleware/strip-bearer-token.js):
pulls the bearer token off the Authorization header; when the header is
absent the catch branch installs the empty string. -/
def stripBearerToken (header : Option Token) : Token :=
  match header with
  | some t => t
  | none => Token.empty

/-- The three derived avatar image locations stored on a user
(`avatarPaths` subdocument of the user schema, src/models/user.js). -/
structure AvatarPaths where
  original : String
  small : String
  large : String
deriving DecidableEq, Repr

/-- `appConfig.cloudStorage.avatars.getDefaultAvatarPaths()`
(src/config/application/config.js). -/
def getDefaultAvatarPaths : AvatarPaths :=
  ⟨"original", "small", "large"⟩

/-- `FileStorageAdapter.getAbsoluteFileURI` (src/adapters/AWS/FileStorageAdapter.js):
absolute URI of a stored object, base URI taken from the adapter constructor. -/
def getAbsoluteFileURI (key : String) : String :=
  "http://jamie-first-test-bucket.s3.us-west-2.amazonaws.com/" ++ key

/-- A user document as persisted by Mongo (src/models/user.js). The
`tokens` field is the active-session list: an insertion-ordered array of
`{ token }` entries, here kept as the token values in order. -/
structure User where
  _id : DocId
  name : String
  email : String
  password : String
  age : Int
  tokens : List Token
  avatarPaths : AvatarPaths
deriving DecidableEq, Repr

/-- The safe user shape produced by `UserService._stripSensitiveData`
(src/services/UserService.js): the rest-destructuring removes the
`password` and `tokens` keys, so the clean object has no such fields. -/
structure CleanUser where
  _id : DocId
  name : String
  email : String
  age : Int
  avatarPaths : AvatarPaths
deriving DecidableEq, Repr

/-- A JSON-ish field value, used to state which keys appear in objects
returned to the caller layer and in update-request bodies. -/
inductive Value where
  | str (s : String)
  | int (n : Int)
  | bool (b : Bool)
  | tokList (ts : List Token)
  | avatar (p : AvatarPaths)
deriving DecidableEq, Repr

/-- Serialization of a stored user document (`user.toJSON()`): the keys a
raw user object carries when passed to the caller layer. -/
def User.toFields (u : User) : List (String × Value) :=
  [("_id", Value.str u._id), ("name", Value.str u.name),
   ("email", Value.str u.email), ("password", Value.str u.password),
   ("age", Value.int u.age), ("avatarPaths", Value.avatar u.avatarPaths),
   ("tokens", Value.tokList u.tokens)]

/-- Serialization of a stripped user object: the keys left after
`_stripSensitiveData` removed `password` and `tokens`. -/
def CleanUser.toFields (u : CleanUser) : List (String × Value) :=
  [("_id", Value.str u._id), ("name", Value.str u.name),
   ("email", Value.str u.email), ("age", Value.int u.age),
   ("avatarPaths", Value.avatar u.avatarPaths)]

/-- Whether a serialized object exposes the credential hash or the
active-session list. -/
def hasSensitiveKey (fields : List (String × Value)) : Bool :=
  fields.any (fun kv => decide (kv.1 = "password") || decide (kv.1 = "tokens"))

/-- The error taxonomy of the application (src/custom-exceptions/index.js),
plus `generic` for unclassified errors (a plain `Error`, surfaced as 500). -/
inductive AppError where
  | authentication
  | validation
  | resourceNotFound
  | generic
deriving DecidableEq, Repr

/-- Whether a service call settled successfully. -/
def opSucceeds {α : Type} : Except AppError α → Bool
  | Except.ok _ => true
  | Except.error _ => false

/-- A Mongo query object over users, covering the query shapes the code
builds: `{ email }` for login and `{ _id, tokens.token }` for session
verification (the dotted path matches any array entry). -/
structure UserQuery where
  _id : Option DocId
  email : Option String
  tokensToken : Option Token
deriving Repr

/-- Whether a user document matches a query object (Mongo `findOne`
filter semantics for the fields the code uses). -/
def UserQuery.matches (q : UserQuery) (u : User) : Bool :=
  (match q._id with
   | some i => decide (u._id = i)
   | none => true) &&
  (match q.email with
   | some e => decide (u.email = e)
   | none => true) &&
  (match q.tokensToken with
   | some t => decide (t ∈ u.tokens)
   | none => true)

/-- The update documents `UserRepository` passes to `findByIdAndUpdate`:
`$push {tokens:{token}}`, `$pull {tokens:{token}}`, `$set {tokens: []}`,
an `avatarPaths` replacement, and plain profile-field updates. -/
inductive UserUpdate where
  | pushToken (t : Token)
  | pullToken (t : Token)
  | clearTokens
  | setAvatar (p : AvatarPaths)
  | setProfile (fields : List (String × Value))
deriving Repr

/-- One profile-field assignment, as Mongo applies it for the schema
fields of src/models/user.js (unknown paths are ignored by the schema). -/
def setUserField (u : User) (kv : String × Value) : User :=
  match kv with
  | ("name", Value.str s) => { u with name := s }
  | ("email", Value.str s) => { u with email := s }
  | ("password", Value.str s) => { u with password := s }
  | ("age", Value.int n) => { u with age := n }
  | _ => u

/-- Mongo applying an update document to one user document. `$push`
appends, `$pull` removes every matching array entry, `$set {tokens: []}`
clears the array. -/
def applyUserUpdate : UserUpdate → User → User
  | UserUpdate.pushToken t, u => { u with tokens := u.tokens ++ [t] }
  | UserUpdate.pullToken t, u => { u with tokens := u.tokens.filter (fun x => decide (x ≠ t)) }
  | UserUpdate.clearTokens, u => { u with tokens := [] }
  | UserUpdate.setAvatar p, u => { u with avatarPaths := p }
  | UserUpdate.setProfile fields, u => fields.foldl setUserField u

/-- `UserRepository.readByQuery` (src/repositories/UserRepository.js):
`User.findOne(query)`, returning the first matching document or null. -/
def UserRepository.readByQuery (db : List User) (query : UserQuery) : Option User :=
  db.find? (fun u => UserQuery.matches query u)

/-- `UserRepository.readById` (src/repositories/UserRepository.js). -/
def UserRepository.readById (db : List User) (id : DocId) : Option User :=
  db.find? (fun u => decide (u._id = id))

/-- `UserRepository.updateById` (src/repositories/UserRepository.js):
`User.findByIdAndUpdate(id, updates, { new: true })` — updates the first
document whose `_id` matches and returns the updated document together
with the updated collection. `none` models `findByIdAndUpdate` returning
null, upon which `user.toJSON()` raises a generic TypeError. -/
def UserRepository.updateById : List User → DocId → UserUpdate → Option (User × List User)
  | [], _, _ => none
  | u :: rest, id, upd =>
    if u._id = id then
      let u2 := applyUserUpdate upd u
      some (u2, u2 :: rest)
    else
      match UserRepository.updateById rest id upd with
      | none => none
      | some (v, rest2) => some (v, u :: rest2)

/-- `UserRepository.updateTokensById` (src/repositories/UserRepository.js):
`$push` of the new session token — the `addSession` operation. -/
def UserRepository.updateTokensById (db : List User) (id : DocId) (token : Token) :
    Option (User × List User) :=
  UserRepository.updateById db id (UserUpdate.pushToken token)

/-- `UserRepository.removeTokenById` (src/repositories/UserRepository.js):
`$pull` of the presented session token — the `removeSession` operation. -/
def UserRepository.removeTokenById (db : List User) (id : DocId) (token : Token) :
    Option (User × List User) :=
  UserRepository.updateById db id (UserUpdate.pullToken token)

/-- `UserRepository.removeAllTokensById` (src/repositories/UserRepository.js):
`$set {tokens: []}` — the `removeAllSessions` operation. -/
def UserRepository.removeAllTokensById (db : List User) (id : DocId) :
    Option (User × List User) :=
  UserRepository.updateById db id UserUpdate.clearTokens

/-- `UserRepository.updateAvatarById` (src/repositories/UserRepository.js). -/
def UserRepository.updateAvatarById (db : List User) (id : DocId) (p : AvatarPaths) :
    Option (User × List User) :=
  UserRepository.updateById db id (UserUpdate.setAvatar p)

/-- Modelled collaborator: `validator.isEmail`, idealized as containing
an at-sign. -/
def isEmail (e : String) : Bool :=
  e.contains (Char.ofNat 64)

/-- `UserRepository.deleteById` (src/repositories/UserRepository.js):
`findById`, `ResourceNotFoundError` when absent, then `user.remove()`;
returns `user.toJSON()` — the raw stored document. -/
def UserRepository.deleteById (db : List User) (id : DocId) :
    Except AppError (User × List User) :=
  match db.find? (fun u => decide (u._id = id)) with
  | none => Except.error AppError.resourceNotFound
  | some u => Except.ok (u, db.eraseP (fun x => decide (x._id = u._id)))

/-- Mongoose schema validation for the user model (src/models/user.js):
required nonempty name and email, valid email, password of at least 7
characters, nonnegative age. The `validator.isEmail` collaborator is
idealized by `isEmail`. -/
def User.schemaValid (u : User) : Bool :=
  decide (u.name ≠ "") && decide (u.email ≠ "") && isEmail u.email &&
    decide (u.password.length ≥ 7) && decide (u.age ≥ 0)

/-- `UserRepository.create` (src/repositories/UserRepository.js): saves a
new user document. A mongoose validation failure becomes `ValidationError`;
a duplicate email raises the Mongo 11000 duplicate-key error, which the
service layer (`signUpNewUser` catch) also converts to `ValidationError` —
both are folded to `validation` here since only the service-level outcome
is observable upward. -/
def UserRepository.create (db : List User) (u : User) :
    Except AppError (User × List User) :=
  if User.schemaValid u then
    if db.any (fun v => decide (v.email = u.email)) then
      Except.error AppError.validation
    else
      Except.ok (u, db ++ [u])
  else
    Except.error AppError.validation

/-- Modelled collaborator: `bcrypt.hash(plainTextPassword, 8)` through
`PasswordService.hash` (src/services/PasswordService.js), idealized as a
deterministic injective one-way transform. -/
def PasswordService.hash (plainTextPassword : String) : String :=
  "bcrypt8$" ++ plainTextPassword

/-- Modelled collaborator: `bcrypt.compare` through
`PasswordService.compare` (src/services/PasswordService.js). -/
def PasswordService.compare (plainText hashed : String) : Bool :=
  decide (hashed = PasswordService.hash plainText)

/-- `UserService._stripSensitiveData` (src/services/UserService.js):
rest-destructuring that drops the `password` and `tokens` keys. -/
def UserService._stripSensitiveData (user : User) : CleanUser :=
  ⟨user._id, user.name, user.email, user.age, user.avatarPaths⟩

/-- One key of `UserService._mapRelativeAvatarPathsToAbsoluteAvatarURIs`:
the relative path when it is not the `no-profile` sentinel, otherwise the
default path for that key, made absolute by the adapter. -/
def mapAvatarKey (dflt rel : String) : String :=
  getAbsoluteFileURI (if rel ≠ "no-profile" then rel else dflt)

/-- `UserService._mapRelativeAvatarPathsToAbsoluteAvatarURIs`
(src/services/UserService.js). -/
def UserService._mapRelativeAvatarPathsToAbsoluteAvatarURIs (p : AvatarPaths) : AvatarPaths :=
  ⟨mapAvatarKey getDefaultAvatarPaths.original p.original,
   mapAvatarKey getDefaultAvatarPaths.small p.small,
   mapAvatarKey getDefaultAvatarPaths.large p.large⟩

/-- `UserService._transformUser` (src/services/UserService.js): strip the
sensitive fields, then map the avatar paths to absolute URIs unless they
are the database default sentinel. -/
def UserService._transformUser (user : User) : CleanUser :=
  let strippedUser := UserService._stripSensitiveData user
  ⟨strippedUser._id, strippedUser.name, strippedUser.email, strippedUser.age,
   if strippedUser.avatarPaths.original ≠ "no-profile" then
     UserService._mapRelativeAvatarPathsToAbsoluteAvatarURIs strippedUser.avatarPaths
   else
     strippedUser.avatarPaths⟩

/-- `UserService._transformUser` as it behaves when applied to an object
that has already been stripped (the `deleteUserAvatar` early return applies
it to `context.user`): destructuring absent keys is a no-op, then the same
avatar branch runs. -/
def UserService._transformUserOnClean (cu : CleanUser) : CleanUser :=
  ⟨cu._id, cu.name, cu.email, cu.age,
   if cu.avatarPaths.original ≠ "no-profile" then
     UserService._mapRelativeAvatarPathsToAbsoluteAvatarURIs cu.avatarPaths
   else
     cu.avatarPaths⟩

/-- `UserService.retrieveUserByQuery` (src/services/UserService.js):
repository lookup, `ResourceNotFoundError` when no user matches, the
transformed safe user otherwise. -/
def UserService.retrieveUserByQuery (db : List User) (query : UserQuery) :
    Except AppError CleanUser :=
  match UserRepository.readByQuery db query with
  | none => Except.error AppError.resourceNotFound
  | some user => Except.ok (UserService._transformUser user)

/-- `verifyAuth` middleware, second variant
(src/api/middleware/verify-auth.js as quoted at src/src/api/routes/task.js
lines 151-171): decode the bearer token, then load the user by the single
combined query `{ _id: decoded._id, tokens.token: req.token }`; any failure
inside the try block — decode throwing, or the lookup not producing a
user — is caught and rethrown as a bare `AuthenticationError`. The loaded
principal becomes the request-scoped `context.user`. -/
def verifyAuth (db : List User) (secret : Secret) (token : Token) :
    Except AppError CleanUser :=
  match AuthenticationService.verifyAuthToken secret token with
  | none => Except.error AppError.authentication
  | some decodedId =>
    match UserService.retrieveUserByQuery db ⟨some decodedId, none, some token⟩ with
    | Except.error _ => Except.error AppError.authentication
    | Except.ok user => Except.ok user

/-- `verifyAuth` middleware, first variant
(src/src/api/routes/task.js lines 115-134): same try block, but the catch
branch maps only `ResourceNotFoundError` to `AuthenticationError` and wraps
every other failure — including a failed token decode — in a plain generic
`Error` (surfaced as 500). -/
def verifyAuthV1 (db : List User) (secret : Secret) (token : Token) :
    Except AppError CleanUser :=
  match AuthenticationService.verifyAuthToken secret token with
  | none => Except.error AppError.generic
  | some decodedId =>
    match UserService.retrieveUserByQuery db ⟨some decodedId, none, some token⟩ with
    | Except.error e =>
      if e = AppError.resourceNotFound then Except.error AppError.authentication
      else Except.error AppError.generic
    | Except.ok user => Except.ok user

/-- The request body of a sign-up (`userData`). `password` is optional so
the `if (!userData.password)` guard is observable. -/
structure SignUpData where
  name : String
  email : String
  password : Option String
  age : Int
deriving DecidableEq, Repr

/-- `UserService.signUpNewUser` (src/services/UserService.js): guard the
password, hash it, build the clean user with default avatar paths, create
it (Mongo generates the fresh `_id`, passed here as `newId`), issue a
token, append it to the session list, and return the transformed safe user
with the token. -/
def UserService.signUpNewUser (db : List User) (secret : Secret) (newId : DocId)
    (iat : Nat) (userData : SignUpData) : Except AppError (CleanUser × Token) × List User :=
  match userData.password with
  | none => (Except.error AppError.validation, db)
  | some pw =>
    if pw = "" then (Except.error AppError.validation, db)
    else
      let hashedPassword := PasswordService.hash pw
      let cleanUser : User :=
        ⟨newId, userData.name, userData.email, hashedPassword, userData.age, [],
         getDefaultAvatarPaths⟩
      match UserRepository.create db cleanUser with
      | Except.error e => (Except.error e, db)
      | Except.ok (userPreToken, db1) =>
        let token := AuthenticationService.generateAuthToken secret userPreToken._id iat
        match UserRepository.updateTokensById db1 userPreToken._id token with
        | none => (Except.error AppError.generic, db1)
        | some (userWithToken, db2) =>
          (Except.ok (UserService._transformUser userWithToken, token), db2)

/-- `UserService.loginUser` (src/services/UserService.js): guard the
inputs, look the user up by email, compare password hashes (false when the
user is missing or has a falsy stored password), issue a token, append it
to the session list, and return the transformed safe user with the token. -/
def UserService.loginUser (db : List User) (secret : Secret) (iat : Nat)
    (email password : String) : Except AppError (CleanUser × Token) × List User :=
  if email = "" ∨ password = "" then (Except.error AppError.validation, db)
  else
    let user := UserRepository.readByQuery db ⟨none, some email, none⟩
    let isAuthenticated :=
      match user with
      | some u => if u.password ≠ "" then PasswordService.compare password u.password else false
      | none => false
    match user with
    | none => (Except.error AppError.authentication, db)
    | some u =>
      if isAuthenticated then
        let token := AuthenticationService.generateAuthToken secret u._id iat
        match UserRepository.updateTokensById db u._id token with
        | none => (Except.error AppError.generic, db)
        | some (userWithToken, db1) =>
          (Except.ok (UserService._transformUser userWithToken, token), db1)
      else (Except.error AppError.authentication, db)

/-- `UserService.logoutUser` (src/services/UserService.js): remove the
presented token from the context principal's session list and return the
transformed safe user. A missing principal makes `updateById` return null
and the subsequent `toJSON` raises a generic error. -/
def UserService.logoutUser (ctx : CleanUser) (db : List User) (token : Token) :
    Except AppError CleanUser × List User :=
  match UserRepository.removeTokenById db ctx._id token with
  | none => (Except.error AppError.generic, db)
  | some (user, db1) => (Except.ok (UserService._transformUser user), db1)

/-- `UserService.logoutUserAll` (src/services/UserService.js): clear the
context principal's session list and return the transformed safe user. -/
def UserService.logoutUserAll (ctx : CleanUser) (db : List User) :
    Except AppError CleanUser × List User :=
  match UserRepository.removeAllTokensById db ctx._id with
  | none => (Except.error AppError.generic, db)
  | some (user, db1) => (Except.ok (UserService._transformUser user), db1)

/-- The fixed allow-list of mutable profile fields
(`allowedUpdates` in `UserService.updateUser`). -/
def userAllowedUpdates : List String :=
  ["name", "email", "password", "age"]

/-- The fixed allow-list of mutable task fields
(`allowedUpdates` in `TaskService.updateTaskById`). -/
def taskAllowedUpdates : List String :=
  ["description", "completed"]

/-- The password-hashing step of `UserService.updateUser`: when the update
keys include `password`, the plain-text value is replaced by its hash
before the repository is called. -/
def hashPasswordField (updates : List (String × Value)) : List (String × Value) :=
  updates.map (fun kv =>
    match kv with
    | ("password", Value.str p) => ("password", Value.str (PasswordService.hash p))
    | other => other)

/-- `UserService.updateUser` (src/services/UserService.js). The trailing
natural number counts repository (persistence) calls performed, so the
frame conditions `rejected before any persistence call` and `no
persistence call at all` are observable. Zero update keys: return the
context principal untouched, no repository call. Any key outside the
allow-list: `ValidationError`, no repository call. Otherwise hash a
password update if present and call `updateById`. -/
def UserService.updateUser (ctx : CleanUser) (db : List User)
    (requestedUpdates : List (String × Value)) :
    Except AppError CleanUser × List User × Nat :=
  let updateKeys := requestedUpdates.map Prod.fst
  if updateKeys.isEmpty then (Except.ok ctx, db, 0)
  else
    let isValidOperation := updateKeys.all (fun k => decide (k ∈ userAllowedUpdates))
    if isValidOperation then
      let validUpdates :=
        if updateKeys.contains "password" then hashPasswordField requestedUpdates
        else requestedUpdates
      match UserRepository.updateById db ctx._id (UserUpdate.setProfile validUpdates) with
      | none => (Except.error AppError.generic, db, 1)
      | some (user, db1) => (Except.ok (UserService._transformUser user), db1, 1)
    else (Except.error AppError.validation, db, 0)

/-- `UserService.deleteUser` (src/services/UserService.js): deletes the
context principal and returns the repository result directly —
`deleteById` yields the raw stored document (`user.toJSON()`), with no
`_transformUser` applied. -/
def UserService.deleteUser (ctx : CleanUser) (db : List User) :
    Except AppError User × List User :=
  match UserRepository.deleteById db ctx._id with
  | Except.error e => (Except.error e, db)
  | Except.ok (user, db1) => (Except.ok user, db1)

/-- The portion of an S3 object key between the last underscore and the
last dot (`Key.substring(Key.lastIndexOf(..) + 1, Key.lastIndexOf(..))` in
`UserService.uploadUserAvatar`), computed for the well-formed keys the
file-storage service produces (`.../avatar_original.png` and so on). -/
def keySegment (key : String) : String :=
  ((String.intercalate "." ((key.splitOn ".").dropLast)).splitOn "_").getLastD ""

/-- Dynamic assignment `avatarPaths[segment] = Key` of
`UserService.uploadUserAvatar` for the three produced segments. -/
def setAvatarKey (p : AvatarPaths) (segment key : String) : AvatarPaths :=
  if segment = "original" then { p with original := key }
  else if segment = "small" then { p with small := key }
  else if segment = "large" then { p with large := key }
  else p

/-- The `result.forEach` loop of `UserService.uploadUserAvatar`, building
the relative avatar path object from the uploaded object keys. -/
def buildAvatarPaths (keys : List String) : AvatarPaths :=
  keys.foldl (fun p k => setAvatarKey p (keySegment k) k) ⟨"", "", ""⟩

/-- Modelled collaborator: `FileStorageService.processAndUploadAvatarImage`
(src/services/FileStorageService.js with the sharp and S3 adapters): the
upload results carry the keys `users/{uid}/profile/avatar/avatar_{type}.{ext}`
for the three processed image types. -/
def FileStorageService.processAndUploadAvatarImage (uid : DocId) : List String :=
  ["users/" ++ uid ++ "/profile/avatar/avatar_original.png",
   "users/" ++ uid ++ "/profile/avatar/avatar_small.png",
   "users/" ++ uid ++ "/profile/avatar/avatar_large.png"]

/-- `UserService.uploadUserAvatar` (src/services/UserService.js): with no
buffer, store the default avatar paths; otherwise process and upload the
image, rebuild the relative path object from the returned keys, store it;
either way return the transformed safe user. -/
def UserService.uploadUserAvatar (ctx : CleanUser) (db : List User)
    (avatarBuffer : Option String) : Except AppError CleanUser × List User :=
  match avatarBuffer with
  | none =>
    match UserRepository.updateAvatarById db ctx._id getDefaultAvatarPaths with
    | none => (Except.error AppError.generic, db)
    | some (updatedUser, db1) => (Except.ok (UserService._transformUser updatedUser), db1)
  | some _ =>
    let result := FileStorageService.processAndUploadAvatarImage ctx._id
    let avatarPaths := buildAvatarPaths result
    match UserRepository.updateAvatarById db ctx._id avatarPaths with
    | none => (Except.error AppError.generic, db)
    | some (updatedUser, db1) => (Except.ok (UserService._transformUser updatedUser), db1)

/-- `UserService.deleteUserAvatar` (src/services/UserService.js): when the
context principal holds no unique avatar, return the (already clean)
context user through `_transformUser` without touching the store;
otherwise delete the blobs (external side effect) and reset the stored
paths to the defaults, returning the transformed safe user. -/
def UserService.deleteUserAvatar (ctx : CleanUser) (db : List User) :
    Except AppError CleanUser × List User :=
  let avatarPaths := ctx.avatarPaths
  let defaultAvatarPaths := getDefaultAvatarPaths
  if avatarPaths.original = "no-profile" ∨ avatarPaths.original = defaultAvatarPaths.original then
    (Except.ok (UserService._transformUserOnClean ctx), db)
  else
    match UserRepository.updateAvatarById db ctx._id defaultAvatarPaths with
    | none => (Except.error AppError.generic, db)
    | some (updatedUser, db1) => (Except.ok (UserService._transformUser updatedUser), db1)

/-- A task document (src/models/task.js, model name `Task`): description, completion flag
(default false), and the owning principal's identifier. -/
structure TaskDoc where
  _id : DocId
  description : String
  completed : Bool
  owner : DocId
deriving DecidableEq, Repr

/-- A Mongo query object over tasks, covering the query shapes the task
service builds: the ownership constraint and the optional completed
filter. -/
structure TaskQuery where
  owner : Option DocId
  completed : Option Bool
deriving Repr

/-- Whether a task document matches a query object. -/
def TaskQuery.matches (q : TaskQuery) (t : TaskDoc) : Bool :=
  (match q.owner with
   | some o => decide (t.owner = o)
   | none => true) &&
  (match q.completed with
   | some c => decide (t.completed = c)
   | none => true)

/-- One task-field assignment, as Mongo applies it for the schema fields
of src/models/task.js. -/
def applyTaskField (t : TaskDoc) (kv : String × Value) : TaskDoc :=
  match kv with
  | ("description", Value.str s) => { t with description := s }
  | ("completed", Value.bool b) => { t with completed := b }
  | _ => t

/-- Mongo applying a task update document. -/
def applyTaskUpdates (updates : List (String × Value)) (t : TaskDoc) : TaskDoc :=
  updates.foldl applyTaskField t

/-- `TaskRepository.readByIdWithQuery` (src/repositories/TaskRepository.js):
`Task.find({ _id: id, ...query })` — every matching document, in
collection order. -/
def TaskRepository.readByIdWithQuery (db : List TaskDoc) (id : DocId) (q : TaskQuery) :
    List TaskDoc :=
  db.filter (fun t => decide (t._id = id) && TaskQuery.matches q t)

/-- `TaskRepository.readByQuery` (src/repositories/TaskRepository.js). -/
def TaskRepository.readByQuery (db : List TaskDoc) (q : TaskQuery) : List TaskDoc :=
  db.filter (fun t => TaskQuery.matches q t)

/-- `TaskRepository.updateByIdWithQuery` (src/repositories/TaskRepository.js):
`findOneAndUpdate({ _id: id, ...query }, updates, { new: true })` — update
the first matching document, returning it (or null) with the updated
collection. -/
def TaskRepository.updateByIdWithQuery :
    List TaskDoc → DocId → TaskQuery → List (String × Value) → Option TaskDoc × List TaskDoc
  | [], _, _, _ => (none, [])
  | t :: rest, id, q, updates =>
    if t._id = id ∧ TaskQuery.matches q t then
      let t2 := applyTaskUpdates updates t
      (some t2, t2 :: rest)
    else
      let res := TaskRepository.updateByIdWithQuery rest id q updates
      (res.1, t :: res.2)

/-- `TaskRepository.deleteByIdWithQuery` (src/repositories/TaskRepository.js):
`findOne({ _id: id, ...query })`, `ResourceNotFoundError` when absent,
then `task.remove()`; returns the removed document and the updated
collection. -/
def TaskRepository.deleteByIdWithQuery (db : List TaskDoc) (id : DocId) (q : TaskQuery) :
    Except AppError (TaskDoc × List TaskDoc) :=
  match db.find? (fun t => decide (t._id = id) && TaskQuery.matches q t) with
  | none => Except.error AppError.resourceNotFound
  | some t => Except.ok (t, db.eraseP (fun x => decide (x._id = t._id)))

/-- `TaskService.retrieveTaskById` (src/services/TaskService.js): read by
id conjoined with `owner == context.user._id`; an empty result — whether
the id does not exist or the task belongs to someone else — is
`ResourceNotFoundError`, otherwise the first hit is returned. -/
def TaskService.retrieveTaskById (ctx : CleanUser) (db : List TaskDoc) (id : DocId) :
    Except AppError TaskDoc :=
  match TaskRepository.readByIdWithQuery db id ⟨some ctx._id, none⟩ with
  | [] => Except.error AppError.resourceNotFound
  | t :: _ => Except.ok t

/-- `TaskService.updateTaskById` (src/services/TaskService.js). The
trailing natural number counts repository (persistence) calls. Zero
update keys or a key outside the allow-list: `ValidationError` with no
repository call. Otherwise `updateByIdWithQuery` under the ownership
constraint; a null result is `ResourceNotFoundError`. -/
def TaskService.updateTaskById (ctx : CleanUser) (db : List TaskDoc) (id : DocId)
    (requestedUpdates : List (String × Value)) :
    Except AppError TaskDoc × List TaskDoc × Nat :=
  let updateKeys := requestedUpdates.map Prod.fst
  if updateKeys.isEmpty then (Except.error AppError.validation, db, 0)
  else
    let isValidOperation := updateKeys.all (fun k => decide (k ∈ taskAllowedUpdates))
    if isValidOperation then
      match TaskRepository.updateByIdWithQuery db id ⟨some ctx._id, none⟩ requestedUpdates with
      | (none, db1) => (Except.error AppError.resourceNotFound, db1, 1)
      | (some updatedTask, db1) => (Except.ok updatedTask, db1, 1)
    else (Except.error AppError.validation, db, 0)

/-- `TaskService.deleteTaskById` (src/services/TaskService.js): delete
under the ownership constraint; the repository's `ResourceNotFoundError`
propagates unchanged. -/
def TaskService.deleteTaskById (ctx : CleanUser) (db : List TaskDoc) (id : DocId) :
    Except AppError Unit × List TaskDoc :=
  match TaskRepository.deleteByIdWithQuery db id ⟨some ctx._id, none⟩ with
  | Except.error e => (Except.error e, db)
  | Except.ok (_, db1) => (Except.ok (), db1)

/-- `TaskService.createNewTask` (src/services/TaskService.js): reject a
missing task body, otherwise create the task with the owner forced to the
context principal (Mongo generates the fresh `_id`, passed as `newId`). -/
def TaskService.createNewTask (ctx : CleanUser) (db : List TaskDoc) (newId : DocId)
    (taskData : Option (String × Bool)) : Except AppError TaskDoc × List TaskDoc :=
  match taskData with
  | none => (Except.error AppError.validation, db)
  | some (description, completed) =>
    let task : TaskDoc := ⟨newId, description, completed, ctx._id⟩
    (Except.ok task, db ++ [task])

/-- The Mongo collection invariant: `_id` values are pairwise distinct
(Mongo enforces `_id` uniqueness). -/
def uniqueIds (db : List User) : Prop :=
  db.Pairwise (fun a b => a._id ≠ b._id)

/-- The Mongo collection invariant for tasks. -/
def uniqueTaskIds (db : List TaskDoc) : Prop :=
  db.Pairwise (fun a b => a._id ≠ b._id)

theorem eq_of_mem_of_same_id {db : List User} {a b : User}
    (huniq : uniqueIds db) (ha : a ∈ db) (hb : b ∈ db) (h : a._id = b._id) :
    a = b := by
  induction db with
  | nil => cases ha
  | cons w rest ih =>
    rcases List.pairwise_cons.mp huniq with ⟨hw, hrest⟩
    rcases List.mem_cons.mp ha with ha1 | ha2 <;>
      rcases List.mem_cons.mp hb with hb1 | hb2
    · exact ha1.trans hb1.symm
    · subst ha1; exact absurd h (hw b hb2)
    · subst hb1; exact absurd h.symm (hw a ha2)
    · exact ih hrest ha2 hb2

theorem task_eq_of_mem_of_same_id {db : List TaskDoc} {a b : TaskDoc}
    (huniq : uniqueTaskIds db) (ha : a ∈ db) (hb : b ∈ db) (h : a._id = b._id) :
    a = b := by
  induction db with
  | nil => cases ha
  | cons w rest ih =>
    rcases List.pairwise_cons.mp huniq with ⟨hw, hrest⟩
    rcases List.mem_cons.mp ha with ha1 | ha2 <;>
      rcases List.mem_cons.mp hb with hb1 | hb2
    · exact ha1.trans hb1.symm
    · subst ha1; exact absurd h (hw b hb2)
    · subst hb1; exact absurd h.symm (hw a ha2)
    · exact ih hrest ha2 hb2

/-- The collection produced by `findByIdAndUpdate`: the first document
whose `_id` matches is replaced. -/
def replaceById : List User → DocId → User → List User
  | [], _, _ => []
  | u :: rest, id, v => if u._id = id then v :: rest else u :: replaceById rest id v

theorem applyUserUpdate_id (upd : UserUpdate) (u : User) :
    (applyUserUpdate upd u)._id = u._id := by
  cases upd with
  | setProfile fields =>
    show (fields.foldl setUserField u)._id = u._id
    induction fields generalizing u with
    | nil => rfl
    | cons kv rest ih =>
      have hkv : (setUserField u kv)._id = u._id := by
        unfold setUserField; split <;> rfl
      calc ((kv :: rest).foldl setUserField u)._id
          = (rest.foldl setUserField (setUserField u kv))._id := rfl
        _ = (setUserField u kv)._id := ih (setUserField u kv)
        _ = u._id := hkv
  | pushToken t => rfl
  | pullToken t => rfl
  | clearTokens => rfl
  | setAvatar p => rfl

theorem updateById_eq_of_mem {db : List User} {i : DocId} {u : User}
    (upd : UserUpdate) (huniq : uniqueIds db) (hu : u ∈ db) (hid : u._id = i) :
    UserRepository.updateById db i upd =
      some (applyUserUpdate upd u, replaceById db i (applyUserUpdate upd u)) := by
  induction db with
  | nil => cases hu
  | cons w rest ih =>
    rcases List.pairwise_cons.mp huniq with ⟨hw, hrest⟩
    rcases List.mem_cons.mp hu with h1 | h2
    · subst h1
      simp [UserRepository.updateById, replaceById, hid]
    · have hwi : w._id ≠ i := by
        intro hcontra
        exact hw u h2 (hcontra.trans hid.symm)
      simp only [UserRepository.updateById, replaceById, if_neg hwi]
      rw [ih hrest h2]

theorem mem_replaceById_weak {db : List User} {i : DocId} {v w : User}
    (h : w ∈ replaceById db i v) : w = v ∨ w ∈ db := by
  induction db with
  | nil => cases h
  | cons u rest ih =>
    by_cases hcase : u._id = i
    · simp only [replaceById, if_pos hcase] at h
      rcases List.mem_cons.mp h with h1 | h2
      · exact Or.inl h1
      · exact Or.inr (List.mem_cons_of_mem u h2)
    · simp only [replaceById, if_neg hcase] at h
      rcases List.mem_cons.mp h with h1 | h2
      · exact Or.inr (h1 ▸ List.mem_cons_self u rest)
      · rcases ih h2 with h3 | h4
        · exact Or.inl h3
        · exact Or.inr (List.mem_cons_of_mem u h4)

theorem mem_replaceById_iff {db : List User} {i : DocId} {v : User}
    (huniq : uniqueIds db) (hex : ∃ u ∈ db, u._id = i) (w : User) :
    w ∈ replaceById db i v ↔ (w = v ∨ (w ∈ db ∧ w._id ≠ i)) := by
  induction db with
  | nil => rcases hex with ⟨u, hu, _⟩; cases hu
  | cons u rest ih =>
    rcases List.pairwise_cons.mp huniq with ⟨hu_rest, hrest⟩
    by_cases hcase : u._id = i
    · simp only [replaceById, if_pos hcase]
      constructor
      · intro h
        rcases List.mem_cons.mp h with h1 | h2
        · exact Or.inl h1
        · refine Or.inr ⟨List.mem_cons_of_mem u h2, ?_⟩
          intro hcontra
          exact hu_rest w h2 (hcase.trans hcontra.symm)
      · intro h
        rcases h with h1 | ⟨h2, h3⟩
        · exact h1 ▸ List.mem_cons_self v rest
        · rcases List.mem_cons.mp h2 with h4 | h5
          · exact absurd (h4 ▸ hcase) h3
          · exact List.mem_cons_of_mem v h5
    · have hex2 : ∃ x ∈ rest, x._id = i := by
        rcases hex with ⟨x, hx, hxi⟩
        rcases List.mem_cons.mp hx with h1 | h2
        · exact absurd (h1 ▸ hxi) hcase
        · exact ⟨x, h2, hxi⟩
      simp only [replaceById, if_neg hcase]
      constructor
      · intro h
        rcases List.mem_cons.mp h with h1 | h2
        · exact Or.inr ⟨h1 ▸ List.mem_cons_self u rest, h1 ▸ hcase⟩
        · rcases (ih hrest hex2).mp h2 with h3 | ⟨h4, h5⟩
          · exact Or.inl h3
          · exact Or.inr ⟨List.mem_cons_of_mem u h4, h5⟩
      · intro h
        rcases h with h1 | ⟨h2, h3⟩
        · exact List.mem_cons_of_mem u ((ih hrest hex2).mpr (Or.inl h1))
        · rcases List.mem_cons.mp h2 with h4 | h5
          · exact h4 ▸ List.mem_cons_self u _
          · exact List.mem_cons_of_mem u ((ih hrest hex2).mpr (Or.inr ⟨h5, h3⟩))

theorem uniqueIds_replaceById {db : List User} {i : DocId} {v : User}
    (hv : v._id = i) (huniq : uniqueIds db) : uniqueIds (replaceById db i v) := by
  induction db with
  | nil => exact List.Pairwise.nil
  | cons u rest ih =>
    rcases List.pairwise_cons.mp huniq with ⟨hu_rest, hrest⟩
    by_cases hcase : u._id = i
    · simp only [replaceById, if_pos hcase]
      exact List.pairwise_cons.mpr
        ⟨fun w hw => (hv.trans hcase.symm) ▸ hu_rest w hw, hrest⟩
    · simp only [replaceById, if_neg hcase]
      refine List.pairwise_cons.mpr ⟨fun w hw => ?_, ih hrest⟩
      rcases mem_replaceById_weak hw with h1 | h2
      · subst h1; exact fun hcontra => hcase (hcontra.trans hv)
      · exact hu_rest w h2

theorem matches_auth_query (sub : DocId) (tok : Token) (u : User) :
    UserQuery.matches ⟨some sub, none, some tok⟩ u =
      (decide (u._id = sub) && decide (tok ∈ u.tokens)) := by
  simp [UserQuery.matches]

theorem verifyAuth_ok_iff {db : List User} {secret : Secret} {tok : Token} {sub : DocId}
    (h : jwtVerify secret tok = some sub) :
    opSucceeds (verifyAuth db secret tok) = true ↔
      ∃ u ∈ db, u._id = sub ∧ tok ∈ u.tokens := by
  simp only [verifyAuth, AuthenticationService.verifyAuthToken, h,
    UserService.retrieveUserByQuery, UserRepository.readByQuery]
  constructor
  · intro hop
    cases hfind : List.find? (fun u => UserQuery.matches ⟨some sub, none, some tok⟩ u) db with
    | none => simp only [hfind, opSucceeds] at hop; cases hop
    | some u =>
      have hmem := List.mem_of_find?_eq_some hfind
      have hp := List.find?_some hfind
      rw [matches_auth_query] at hp
      simp only [Bool.and_eq_true, decide_eq_true_eq] at hp
      exact ⟨u, hmem, hp.1, hp.2⟩
  · intro hex
    have hsome : (List.find? (fun u => UserQuery.matches ⟨some sub, none, some tok⟩ u) db).isSome := by
      rw [List.find?_isSome]
      rcases hex with ⟨u, hmem, h1, h2⟩
      refine ⟨u, hmem, ?_⟩
      rw [matches_auth_query]
      simp [h1, h2]
    cases hfind : List.find? (fun u => UserQuery.matches ⟨some sub, none, some tok⟩ u) db with
    | none => rw [hfind] at hsome; simp at hsome
    | some u => simp only [hfind, opSucceeds]

theorem verifyAuth_err_of_no_match {db : List User} {secret : Secret} {tok : Token} {sub : DocId}
    (h : jwtVerify secret tok = some sub)
    (hno : ∀ u ∈ db, ¬(u._id = sub ∧ tok ∈ u.tokens)) :
    verifyAuth db secret tok = Except.error AppError.authentication := by
  have hnone : List.find? (fun u => UserQuery.matches ⟨some sub, none, some tok⟩ u) db = none := by
    rw [List.find?_eq_none]
    intro u hmem
    rw [matches_auth_query]
    simp only [Bool.and_eq_true, decide_eq_true_eq, not_and]
    intro h1 h2
    exact hno u hmem ⟨h1, h2⟩
  simp only [verifyAuth, AuthenticationService.verifyAuthToken, h,
    UserService.retrieveUserByQuery, UserRepository.readByQuery, hnone]

theorem verifyAuth_err_of_bad_decode {db : List User} {secret : Secret} {tok : Token}
    (h : jwtVerify secret tok = none) :
    verifyAuth db secret tok = Except.error AppError.authentication := by
  simp only [verifyAuth, AuthenticationService.verifyAuthToken, h]

theorem verifyAuth_ok_of_match {db : List User} {secret : Secret} {tok : Token}
    {sub : DocId} {u : User}
    (h : jwtVerify secret tok = some sub) (huniq : uniqueIds db)
    (hmem : u ∈ db) (hid : u._id = sub) (htok : tok ∈ u.tokens) :
    verifyAuth db secret tok = Except.ok (UserService._transformUser u) := by
  cases hfind : List.find? (fun x => UserQuery.matches ⟨some sub, none, some tok⟩ x) db with
  | none =>
    rw [List.find?_eq_none] at hfind
    have := hfind u hmem
    rw [matches_auth_query] at this
    simp [hid, htok] at this
  | some v =>
    have hvmem := List.mem_of_find?_eq_some hfind
    have hp := List.find?_some hfind
    rw [matches_auth_query] at hp
    simp only [Bool.and_eq_true, decide_eq_true_eq] at hp
    have hvu : v = u := eq_of_mem_of_same_id huniq hvmem hmem (hp.1.trans hid.symm)
    simp only [verifyAuth, AuthenticationService.verifyAuthToken, h,
      UserService.retrieveUserByQuery, UserRepository.readByQuery, hfind, hvu]

theorem _transformUser_id (u : User) :
    (UserService._transformUser u)._id = u._id := rfl

theorem not_mem_pull_self (l : List Token) (t : Token) :
    t ∉ l.filter (fun x => decide (x ≠ t)) := by
  intro h
  have := (List.mem_filter.mp h).2
  simp at this

theorem mem_pull_of_ne {l : List Token} {t1 t2 : Token}
    (h : t2 ∈ l) (hne : t2 ≠ t1) :
    t2 ∈ l.filter (fun x => decide (x ≠ t1)) :=
  List.mem_filter.mpr ⟨h, by simp [hne]⟩

/-- Shared concrete fixture: a user with two live sessions. The two tokens
are signed with the same secret for the same subject but at different
issue times, so they are distinct strings that both decode to `uA`. -/
def userA : User :=
  ⟨"uA", "Alice", "alice@mail.test", "bcrypt8$pw12345", 30,
   [Token.signed "shh" "uA" 1, Token.signed "shh" "uA" 2],
   ⟨"original", "small", "large"⟩⟩

/-- Shared concrete fixture: a second user with one live session. -/
def userB : User :=
  ⟨"uB", "Bob", "bob@mail.test", "bcrypt8$pw22345", 25,
   [Token.signed "shh" "uB" 3],
   ⟨"no-profile", "no-profile", "no-profile"⟩⟩

/-- Shared concrete fixture: a two-user collection. -/
def exDb : List User := [userA, userB]

/-- C1: with a token that decodes to a subject (valid signature), session
verification succeeds exactly when some stored principal has that subject
as `_id` and holds the exact token string in its active-session list (one
combined `findOne` over both constraints); when no principal matches —
including a cryptographically valid token whose list entry was removed —
the failure is the same `AuthenticationError` produced by an invalid
signature. -/
theorem claim_C1 (db : List User) (secret : Secret) (tok : Token) (sub : DocId)
    (h : jwtVerify secret tok = some sub) :
    (opSucceeds (verifyAuth db secret tok) = true ↔
      ∃ u ∈ db, u._id = sub ∧ tok ∈ u.tokens)
    ∧ ((∀ u ∈ db, ¬(u._id = sub ∧ tok ∈ u.tokens)) →
        verifyAuth db secret tok = Except.error AppError.authentication)
    ∧ (∀ tokBad : Token, jwtVerify secret tokBad = none →
        verifyAuth db secret tokBad = Except.error AppError.authentication) :=
  ⟨verifyAuth_ok_iff h,
   fun hno => verifyAuth_err_of_no_match h hno,
   fun _ hbad => verifyAuth_err_of_bad_decode hbad⟩

/-- C1 witness: a cryptographically valid token for `uA` that is not in
the session list is rejected with `AuthenticationError`, exactly as an
invalid signature is. -/
theorem claim_C1_witness :
    verifyAuth exDb "shh" (Token.signed "shh" "uA" 99) =
      Except.error AppError.authentication :=
  (claim_C1 exDb "shh" (Token.signed "shh" "uA" 99) "uA" rfl).2.1 (by decide)

/-- C6: an absent Authorization header is mapped to the empty token by the
collaborator, and session verification of the empty token fails with
`AuthenticationError` for every store and every signing secret — the
outcome never depends on signature verification, because the decode
collaborator rejects the empty string before any cryptography. -/
theorem claim_C6 :
    stripBearerToken none = Token.empty ∧
    ∀ (db : List User) (secret : Secret),
      verifyAuth db secret Token.empty = Except.error AppError.authentication :=
  ⟨rfl, fun _ _ => verifyAuth_err_of_bad_decode rfl⟩

theorem verifyAuthV1_err_of_bad_decode {db : List User} {secret : Secret} {tok : Token}
    (h : jwtVerify secret tok = none) :
    verifyAuthV1 db secret tok = Except.error AppError.generic := by
  simp only [verifyAuthV1, AuthenticationService.verifyAuthToken, h]

theorem verifyAuthV1_err_of_no_match {db : List User} {secret : Secret} {tok : Token}
    {sub : DocId} (h : jwtVerify secret tok = some sub)
    (hno : ∀ u ∈ db, ¬(u._id = sub ∧ tok ∈ u.tokens)) :
    verifyAuthV1 db secret tok = Except.error AppError.authentication := by
  have hnone : List.find? (fun u => UserQuery.matches ⟨some sub, none, some tok⟩ u) db = none := by
    rw [List.find?_eq_none]
    intro u hmem
    rw [matches_auth_query]
    simp only [Bool.and_eq_true, decide_eq_true_eq, not_and]
    intro h1 h2
    exact hno u hmem ⟨h1, h2⟩
  simp only [verifyAuthV1, AuthenticationService.verifyAuthToken, h,
    UserService.retrieveUserByQuery, UserRepository.readByQuery, hnone]
  rfl

/-- C7 counterexample: in the first `verifyAuth` variant a failed decode
(malformed token) is rethrown as a plain generic error — not as
`AuthenticationError` — so the claim that session verification never
surfaces an unclassified error is false as stated over both variants. -/
theorem claim_C7_counterexample :
    verifyAuthV1 [] "shh" (Token.garbage "not-a-jwt") = Except.error AppError.generic
    ∧ AppError.generic ≠ AppError.authentication :=
  ⟨rfl, by decide⟩

/-- C7 (amended): in the second `verifyAuth` variant every decode failure
and every failed combined lookup (unknown user or revoked token) yields
the identical bare `AuthenticationError`; in the first variant only the
failed lookup is mapped to `AuthenticationError`, while a decode failure
surfaces as a generic unclassified error. -/
theorem claim_C7 (db : List User) (secret : Secret) (tok : Token) :
    (jwtVerify secret tok = none →
      verifyAuth db secret tok = Except.error AppError.authentication ∧
      verifyAuthV1 db secret tok = Except.error AppError.generic)
    ∧ (∀ sub : DocId, jwtVerify secret tok = some sub →
        (∀ u ∈ db, ¬(u._id = sub ∧ tok ∈ u.tokens)) →
        verifyAuth db secret tok = Except.error AppError.authentication ∧
        verifyAuthV1 db secret tok = Except.error AppError.authentication) :=
  ⟨fun h => ⟨verifyAuth_err_of_bad_decode h, verifyAuthV1_err_of_bad_decode h⟩,
   fun _ h hno => ⟨verifyAuth_err_of_no_match h hno, verifyAuthV1_err_of_no_match h hno⟩⟩

/-- C7 witness: concrete bad-signature token — second variant answers
`AuthenticationError`, first variant answers a generic error. -/
theorem claim_C7_witness :
    verifyAuth exDb "shh" (Token.signed "other" "uA" 1) = Except.error AppError.authentication
    ∧ verifyAuthV1 exDb "shh" (Token.signed "other" "uA" 1) = Except.error AppError.generic :=
  (claim_C7 exDb "shh" (Token.signed "other" "uA" 1)).1 (by decide)

/-- C2: for a principal with two distinct live tokens, a single logout with
the first token removes exactly that token: afterwards session verification
of the revoked token fails with `AuthenticationError` while the second
token still verifies for the same principal. -/
theorem claim_C2 (db : List User) (secret : Secret) (u : User) (t1 t2 : Token)
    (ctx : CleanUser)
    (huniq : uniqueIds db) (hu : u ∈ db)
    (h1 : t1 ∈ u.tokens) (h2 : t2 ∈ u.tokens) (hne : t1 ≠ t2)
    (hd1 : jwtVerify secret t1 = some u._id) (hd2 : jwtVerify secret t2 = some u._id)
    (hctx : ctx._id = u._id) :
    UserService.logoutUser ctx db t1 =
      (Except.ok (UserService._transformUser (applyUserUpdate (UserUpdate.pullToken t1) u)),
       replaceById db u._id (applyUserUpdate (UserUpdate.pullToken t1) u))
    ∧ verifyAuth (replaceById db u._id (applyUserUpdate (UserUpdate.pullToken t1) u))
        secret t1 = Except.error AppError.authentication
    ∧ ∃ cu : CleanUser,
        verifyAuth (replaceById db u._id (applyUserUpdate (UserUpdate.pullToken t1) u))
          secret t2 = Except.ok cu ∧ cu._id = u._id := by
  have hupd := updateById_eq_of_mem (UserUpdate.pullToken t1) huniq hu rfl
  have hid2 : (applyUserUpdate (UserUpdate.pullToken t1) u)._id = u._id :=
    applyUserUpdate_id _ u
  have huniq2 : uniqueIds (replaceById db u._id (applyUserUpdate (UserUpdate.pullToken t1) u)) :=
    uniqueIds_replaceById hid2 huniq
  have hex : ∃ x ∈ db, x._id = u._id := ⟨u, hu, rfl⟩
  refine ⟨?_, ?_, ?_⟩
  · unfold UserService.logoutUser UserRepository.removeTokenById
    rw [hctx, hupd]
  · apply verifyAuth_err_of_no_match hd1
    intro w hw
    rcases (mem_replaceById_iff huniq hex w).mp hw with hw1 | ⟨_, hw3⟩
    · subst hw1
      intro hcontra
      exact not_mem_pull_self u.tokens t1 hcontra.2
    · intro hcontra
      exact hw3 hcontra.1
  · refine ⟨UserService._transformUser (applyUserUpdate (UserUpdate.pullToken t1) u), ?_, ?_⟩
    · apply verifyAuth_ok_of_match hd2 huniq2
        ((mem_replaceById_iff huniq hex _).mpr (Or.inl rfl)) hid2
      exact mem_pull_of_ne h2 (Ne.symm hne)
    · rw [_transformUser_id, hid2]

/-- C2 witness: Alice holds sessions `t1` (iat 1) and `t2` (iat 2); after
`logoutUser t1`, verification of `t1` fails and `t2` still succeeds. -/
theorem claim_C2_witness :
    UserService.logoutUser (UserService._transformUser userA) exDb (Token.signed "shh" "uA" 1) =
      (Except.ok (UserService._transformUser
         (applyUserUpdate (UserUpdate.pullToken (Token.signed "shh" "uA" 1)) userA)),
       replaceById exDb "uA"
         (applyUserUpdate (UserUpdate.pullToken (Token.signed "shh" "uA" 1)) userA))
    ∧ verifyAuth (replaceById exDb "uA"
         (applyUserUpdate (UserUpdate.pullToken (Token.signed "shh" "uA" 1)) userA))
        "shh" (Token.signed "shh" "uA" 1) = Except.error AppError.authentication
    ∧ ∃ cu : CleanUser,
        verifyAuth (replaceById exDb "uA"
           (applyUserUpdate (UserUpdate.pullToken (Token.signed "shh" "uA" 1)) userA))
          "shh" (Token.signed "shh" "uA" 2) = Except.ok cu ∧ cu._id = "uA" :=
  claim_C2 exDb "shh" userA (Token.signed "shh" "uA" 1) (Token.signed "shh" "uA" 2)
    (UserService._transformUser userA)
    (by unfold uniqueIds exDb; decide) (by decide)
    (by decide) (by decide) (by decide) rfl rfl rfl

/-- C3: after `logoutUserAll`, the principal's active-session list is
empty, and every token that decodes to that principal — in particular
every previously issued one — fails session verification with
`AuthenticationError`. -/
theorem claim_C3 (db : List User) (secret : Secret) (u : User) (ctx : CleanUser)
    (huniq : uniqueIds db) (hu : u ∈ db) (hctx : ctx._id = u._id) :
    UserService.logoutUserAll ctx db =
      (Except.ok (UserService._transformUser (applyUserUpdate UserUpdate.clearTokens u)),
       replaceById db u._id (applyUserUpdate UserUpdate.clearTokens u))
    ∧ (applyUserUpdate UserUpdate.clearTokens u).tokens = []
    ∧ ∀ t : Token, jwtVerify secret t = some u._id →
        verifyAuth (replaceById db u._id (applyUserUpdate UserUpdate.clearTokens u))
          secret t = Except.error AppError.authentication := by
  have hupd := updateById_eq_of_mem UserUpdate.clearTokens huniq hu rfl
  have hex : ∃ x ∈ db, x._id = u._id := ⟨u, hu, rfl⟩
  refine ⟨?_, rfl, ?_⟩
  · unfold UserService.logoutUserAll UserRepository.removeAllTokensById
    rw [hctx, hupd]
  · intro t ht
    apply verifyAuth_err_of_no_match ht
    intro w hw
    rcases (mem_replaceById_iff huniq hex w).mp hw with hw1 | ⟨_, hw3⟩
    · subst hw1
      intro hcontra
      exact List.not_mem_nil t hcontra.2
    · intro hcontra
      exact hw3 hcontra.1

/-- C3 witness: after Alice logs out everywhere, both of her previously
issued tokens fail verification. -/
theorem claim_C3_witness :
    UserService.logoutUserAll (UserService._transformUser userA) exDb =
      (Except.ok (UserService._transformUser (applyUserUpdate UserUpdate.clearTokens userA)),
       replaceById exDb "uA" (applyUserUpdate UserUpdate.clearTokens userA))
    ∧ (applyUserUpdate UserUpdate.clearTokens userA).tokens = []
    ∧ ∀ t : Token, jwtVerify "shh" t = some "uA" →
        verifyAuth (replaceById exDb "uA" (applyUserUpdate UserUpdate.clearTokens userA))
          "shh" t = Except.error AppError.authentication :=
  claim_C3 exDb "shh" userA (UserService._transformUser userA)
    (by unfold uniqueIds exDb; decide) (by decide) rfl

/-- C9: `updateTokensById` (the `addSession` operation) appends
unconditionally: adding the same token twice yields two equal entries at
the end of the list, in insertion order, with no deduplication. -/
theorem claim_C9 (db : List User) (u : User) (tok : Token)
    (huniq : uniqueIds db) (hu : u ∈ db) :
    UserRepository.updateTokensById db u._id tok =
      some (applyUserUpdate (UserUpdate.pushToken tok) u,
            replaceById db u._id (applyUserUpdate (UserUpdate.pushToken tok) u))
    ∧ (applyUserUpdate (UserUpdate.pushToken tok) u).tokens = u.tokens ++ [tok]
    ∧ UserRepository.updateTokensById
        (replaceById db u._id (applyUserUpdate (UserUpdate.pushToken tok) u)) u._id tok =
      some (applyUserUpdate (UserUpdate.pushToken tok)
              (applyUserUpdate (UserUpdate.pushToken tok) u),
            replaceById (replaceById db u._id (applyUserUpdate (UserUpdate.pushToken tok) u))
              u._id (applyUserUpdate (UserUpdate.pushToken tok)
                       (applyUserUpdate (UserUpdate.pushToken tok) u)))
    ∧ (applyUserUpdate (UserUpdate.pushToken tok)
         (applyUserUpdate (UserUpdate.pushToken tok) u)).tokens =
        u.tokens ++ [tok, tok] := by
  have hid1 : (applyUserUpdate (UserUpdate.pushToken tok) u)._id = u._id :=
    applyUserUpdate_id _ u
  have huniq1 : uniqueIds (replaceById db u._id (applyUserUpdate (UserUpdate.pushToken tok) u)) :=
    uniqueIds_replaceById hid1 huniq
  have hex : ∃ x ∈ db, x._id = u._id := ⟨u, hu, rfl⟩
  have hmem1 : applyUserUpdate (UserUpdate.pushToken tok) u ∈
      replaceById db u._id (applyUserUpdate (UserUpdate.pushToken tok) u) :=
    (mem_replaceById_iff huniq hex _).mpr (Or.inl rfl)
  refine ⟨?_, rfl, ?_, ?_⟩
  · exact updateById_eq_of_mem (UserUpdate.pushToken tok) huniq hu rfl
  · exact updateById_eq_of_mem (UserUpdate.pushToken tok) huniq1 hmem1 hid1
  · show (u.tokens ++ [tok]) ++ [tok] = u.tokens ++ [tok, tok]
    simp

/-- C9 witness: pushing Bob's next session token twice produces two equal
trailing entries after his existing session. -/
theorem claim_C9_witness :
    UserRepository.updateTokensById exDb "uB" (Token.signed "shh" "uB" 7) =
      some (applyUserUpdate (UserUpdate.pushToken (Token.signed "shh" "uB" 7)) userB,
            replaceById exDb "uB"
              (applyUserUpdate (UserUpdate.pushToken (Token.signed "shh" "uB" 7)) userB))
    ∧ (applyUserUpdate (UserUpdate.pushToken (Token.signed "shh" "uB" 7)) userB).tokens =
        userB.tokens ++ [Token.signed "shh" "uB" 7]
    ∧ UserRepository.updateTokensById
        (replaceById exDb "uB"
          (applyUserUpdate (UserUpdate.pushToken (Token.signed "shh" "uB" 7)) userB))
        "uB" (Token.signed "shh" "uB" 7) =
      some (applyUserUpdate (UserUpdate.pushToken (Token.signed "shh" "uB" 7))
              (applyUserUpdate (UserUpdate.pushToken (Token.signed "shh" "uB" 7)) userB),
            replaceById (replaceById exDb "uB"
                (applyUserUpdate (UserUpdate.pushToken (Token.signed "shh" "uB" 7)) userB))
              "uB" (applyUserUpdate (UserUpdate.pushToken (Token.signed "shh" "uB" 7))
                      (applyUserUpdate (UserUpdate.pushToken (Token.signed "shh" "uB" 7)) userB)))
    ∧ (applyUserUpdate (UserUpdate.pushToken (Token.signed "shh" "uB" 7))
         (applyUserUpdate (UserUpdate.pushToken (Token.signed "shh" "uB" 7)) userB)).tokens =
        userB.tokens ++ [Token.signed "shh" "uB" 7, Token.signed "shh" "uB" 7] :=
  claim_C9 exDb userB (Token.signed "shh" "uB" 7)
    (by unfold uniqueIds exDb; decide) (by decide)

theorem matches_owner_query (o : DocId) (t : TaskDoc) :
    TaskQuery.matches ⟨some o, none⟩ t = decide (t.owner = o) := by
  simp [TaskQuery.matches]

theorem readByIdWithQuery_nil_of_no_match {db : List TaskDoc} {id o : DocId}
    (hno : ∀ t ∈ db, ¬(t._id = id ∧ t.owner = o)) :
    TaskRepository.readByIdWithQuery db id ⟨some o, none⟩ = [] := by
  unfold TaskRepository.readByIdWithQuery
  rw [List.filter_eq_nil_iff]
  intro t hmem
  rw [matches_owner_query]
  simp only [Bool.and_eq_true, decide_eq_true_eq, not_and]
  intro h1 h2
  exact hno t hmem ⟨h1, h2⟩

theorem updateByIdWithQuery_no_match {db : List TaskDoc} {id : DocId} {q : TaskQuery}
    {updates : List (String × Value)}
    (hno : ∀ t ∈ db, ¬(t._id = id ∧ TaskQuery.matches q t = true)) :
    TaskRepository.updateByIdWithQuery db id q updates = (none, db) := by
  induction db with
  | nil => rfl
  | cons t rest ih =>
    have hthis : ¬(t._id = id ∧ TaskQuery.matches q t = true) :=
      hno t (List.mem_cons_self t rest)
    have hrest : ∀ x ∈ rest, ¬(x._id = id ∧ TaskQuery.matches q x = true) :=
      fun x hx => hno x (List.mem_cons_of_mem t hx)
    simp only [TaskRepository.updateByIdWithQuery, if_neg hthis, ih hrest]

theorem deleteByIdWithQuery_no_match {db : List TaskDoc} {id o : DocId}
    (hno : ∀ t ∈ db, ¬(t._id = id ∧ t.owner = o)) :
    TaskRepository.deleteByIdWithQuery db id ⟨some o, none⟩ =
      Except.error AppError.resourceNotFound := by
  unfold TaskRepository.deleteByIdWithQuery
  have hnone : List.find? (fun t => decide (t._id = id) && TaskQuery.matches ⟨some o, none⟩ t) db = none := by
    rw [List.find?_eq_none]
    intro t hmem
    rw [matches_owner_query]
    simp only [Bool.and_eq_true, decide_eq_true_eq, not_and]
    intro h1 h2
    exact hno t hmem ⟨h1, h2⟩
  rw [hnone]

theorem updateTaskById_err_of_no_match {ctx : CleanUser} {db : List TaskDoc} {id : DocId}
    {updates : List (String × Value)}
    (hkeys : updates.map Prod.fst ≠ [])
    (hallowed : ∀ k ∈ updates.map Prod.fst, k ∈ taskAllowedUpdates)
    (hno : ∀ t ∈ db, ¬(t._id = id ∧ t.owner = ctx._id)) :
    TaskService.updateTaskById ctx db id updates =
      (Except.error AppError.resourceNotFound, db, 1) := by
  have hemp : (updates.map Prod.fst).isEmpty = false := by
    cases hk : (updates.map Prod.fst).isEmpty
    · rfl
    · exact absurd (List.isEmpty_iff.mp hk) hkeys
  have hall : (updates.map Prod.fst).all (fun k => decide (k ∈ taskAllowedUpdates)) = true := by
    rw [List.all_eq_true]
    intro k hk
    simpa using hallowed k hk
  have hno2 : ∀ t ∈ db, ¬(t._id = id ∧ TaskQuery.matches ⟨some ctx._id, none⟩ t = true) := by
    intro t hmem hcontra
    rw [matches_owner_query] at hcontra
    exact hno t hmem ⟨hcontra.1, by simpa using hcontra.2⟩
  simp only [TaskService.updateTaskById, hemp, hall, updateByIdWithQuery_no_match hno2]
  simp

theorem taskService_all_not_found {ctx : CleanUser} {db : List TaskDoc} {id : DocId}
    {updates : List (String × Value)}
    (hkeys : updates.map Prod.fst ≠ [])
    (hallowed : ∀ k ∈ updates.map Prod.fst, k ∈ taskAllowedUpdates)
    (hno : ∀ t ∈ db, ¬(t._id = id ∧ t.owner = ctx._id)) :
    TaskService.retrieveTaskById ctx db id = Except.error AppError.resourceNotFound
    ∧ TaskService.updateTaskById ctx db id updates =
        (Except.error AppError.resourceNotFound, db, 1)
    ∧ TaskService.deleteTaskById ctx db id =
        (Except.error AppError.resourceNotFound, db) := by
  refine ⟨?_, updateTaskById_err_of_no_match hkeys hallowed hno, ?_⟩
  · unfold TaskService.retrieveTaskById
    rw [readByIdWithQuery_nil_of_no_match hno]
  · unfold TaskService.deleteTaskById
    rw [deleteByIdWithQuery_no_match hno]

/-- C4: every read-by-id, (well-formed) update, and delete of a task owned
by principal `A`, performed as an authenticated principal `B` distinct
from `A`, answers `ResourceNotFound` and leaves the task store unchanged —
the very same outcome produced when the task identifier does not exist at
all, so `B` cannot distinguish the two cases nor observe the task's data. -/
theorem claim_C4 (tdb : List TaskDoc) (T : TaskDoc) (ctxB : CleanUser)
    (updates : List (String × Value))
    (huniq : uniqueTaskIds tdb) (hT : T ∈ tdb) (hBA : ctxB._id ≠ T.owner)
    (hkeys : updates.map Prod.fst ≠ [])
    (hallowed : ∀ k ∈ updates.map Prod.fst, k ∈ taskAllowedUpdates) :
    (TaskService.retrieveTaskById ctxB tdb T._id = Except.error AppError.resourceNotFound
     ∧ TaskService.updateTaskById ctxB tdb T._id updates =
         (Except.error AppError.resourceNotFound, tdb, 1)
     ∧ TaskService.deleteTaskById ctxB tdb T._id =
         (Except.error AppError.resourceNotFound, tdb))
    ∧ ∀ idGone : DocId, (∀ t ∈ tdb, t._id ≠ idGone) →
        TaskService.retrieveTaskById ctxB tdb idGone = Except.error AppError.resourceNotFound
        ∧ TaskService.updateTaskById ctxB tdb idGone updates =
            (Except.error AppError.resourceNotFound, tdb, 1)
        ∧ TaskService.deleteTaskById ctxB tdb idGone =
            (Except.error AppError.resourceNotFound, tdb) := by
  constructor
  · apply taskService_all_not_found hkeys hallowed
    intro t hmem hcontra
    have : t = T := task_eq_of_mem_of_same_id huniq hmem hT hcontra.1
    subst this
    exact hBA hcontra.2.symm
  · intro idGone hgone
    apply taskService_all_not_found hkeys hallowed
    intro t hmem hcontra
    exact hgone t hmem hcontra.1

/-- C4 witness: Bob reading, updating, or deleting Alice's task `t1` gets
`ResourceNotFound` with the store untouched, exactly as for the
nonexistent identifier `missing`. -/
theorem claim_C4_witness :
    (TaskService.retrieveTaskById (UserService._transformUser userB)
        [⟨"t1", "write spec", false, "uA"⟩] "t1" = Except.error AppError.resourceNotFound
     ∧ TaskService.updateTaskById (UserService._transformUser userB)
         [⟨"t1", "write spec", false, "uA"⟩] "t1" [("completed", Value.bool true)] =
         (Except.error AppError.resourceNotFound, [⟨"t1", "write spec", false, "uA"⟩], 1)
     ∧ TaskService.deleteTaskById (UserService._transformUser userB)
         [⟨"t1", "write spec", false, "uA"⟩] "t1" =
         (Except.error AppError.resourceNotFound, [⟨"t1", "write spec", false, "uA"⟩]))
    ∧ ∀ idGone : DocId, (∀ t ∈ [(⟨"t1", "write spec", false, "uA"⟩ : TaskDoc)], t._id ≠ idGone) →
        TaskService.retrieveTaskById (UserService._transformUser userB)
            [⟨"t1", "write spec", false, "uA"⟩] idGone = Except.error AppError.resourceNotFound
        ∧ TaskService.updateTaskById (UserService._transformUser userB)
            [⟨"t1", "write spec", false, "uA"⟩] idGone [("completed", Value.bool true)] =
            (Except.error AppError.resourceNotFound, [⟨"t1", "write spec", false, "uA"⟩], 1)
        ∧ TaskService.deleteTaskById (UserService._transformUser userB)
            [⟨"t1", "write spec", false, "uA"⟩] idGone =
            (Except.error AppError.resourceNotFound, [⟨"t1", "write spec", false, "uA"⟩]) :=
  claim_C4 [⟨"t1", "write spec", false, "uA"⟩] ⟨"t1", "write spec", false, "uA"⟩
    (UserService._transformUser userB) [("completed", Value.bool true)]
    (by unfold uniqueTaskIds; decide) (by decide) (by decide) (by decide) (by decide)

/-- C5: whenever the requested updates object carries any key outside the
fixed per-resource allow-list (tasks: description, completed; profile:
name, email, password, age) — including `_id` or `owner` — the update
operation answers `ValidationError` with zero repository calls performed
and the store value unchanged. -/
theorem claim_C5 (ctx : CleanUser) (tdb : List TaskDoc) (udb : List User)
    (tid : DocId) (updates : List (String × Value)) :
    ((∃ k ∈ updates.map Prod.fst, k ∉ taskAllowedUpdates) →
      TaskService.updateTaskById ctx tdb tid updates =
        (Except.error AppError.validation, tdb, 0))
    ∧ ((∃ k ∈ updates.map Prod.fst, k ∉ userAllowedUpdates) →
      UserService.updateUser ctx udb updates =
        (Except.error AppError.validation, udb, 0)) := by
  constructor
  · rintro ⟨k, hk, hbad⟩
    have hemp : (updates.map Prod.fst).isEmpty = false := by
      cases hy : (updates.map Prod.fst).isEmpty
      · rfl
      · rw [List.isEmpty_iff.mp hy] at hk; cases hk
    have hall : ((updates.map Prod.fst).all fun x => decide (x ∈ taskAllowedUpdates)) = false := by
      cases hy : (updates.map Prod.fst).all fun x => decide (x ∈ taskAllowedUpdates)
      · rfl
      · rw [List.all_eq_true] at hy
        have := hy k hk
        simp only [decide_eq_true_eq] at this
        exact absurd this hbad
    simp only [TaskService.updateTaskById, hemp, hall]
    simp
  · rintro ⟨k, hk, hbad⟩
    have hemp : (updates.map Prod.fst).isEmpty = false := by
      cases hy : (updates.map Prod.fst).isEmpty
      · rfl
      · rw [List.isEmpty_iff.mp hy] at hk; cases hk
    have hall : ((updates.map Prod.fst).all fun x => decide (x ∈ userAllowedUpdates)) = false := by
      cases hy : (updates.map Prod.fst).all fun x => decide (x ∈ userAllowedUpdates)
      · rfl
      · rw [List.all_eq_true] at hy
        have := hy k hk
        simp only [decide_eq_true_eq] at this
        exact absurd this hbad
    simp only [UserService.updateUser, hemp, hall]
    simp

/-- C5 witness: the body `{ _id: "x" }` is rejected with `ValidationError`
by both the task update and the profile update, with the stores untouched
and zero repository calls. -/
theorem claim_C5_witness :
    TaskService.updateTaskById (UserService._transformUser userA)
        [⟨"t1", "write spec", false, "uA"⟩] "t1" [("_id", Value.str "x")] =
      (Except.error AppError.validation, [⟨"t1", "write spec", false, "uA"⟩], 0)
    ∧ UserService.updateUser (UserService._transformUser userA) exDb
        [("_id", Value.str "x")] =
      (Except.error AppError.validation, exDb, 0) :=
  ⟨(claim_C5 (UserService._transformUser userA) [⟨"t1", "write spec", false, "uA"⟩] exDb
      "t1" [("_id", Value.str "x")]).1 (by decide),
   (claim_C5 (UserService._transformUser userA) [⟨"t1", "write spec", false, "uA"⟩] exDb
      "t1" [("_id", Value.str "x")]).2 (by decide)⟩

/-- C10: `updateUser` with an empty updates object returns the context
principal exactly as held in the request-scoped context and performs no
repository call, leaving the store unchanged; a non-empty updates object
always reaches validation — an invalid key set is rejected with
`ValidationError` and zero repository calls, a valid one performs exactly
one repository call. -/
theorem claim_C10 (ctx : CleanUser) (db : List User) :
    UserService.updateUser ctx db [] = (Except.ok ctx, db, 0)
    ∧ ∀ updates : List (String × Value), updates ≠ [] →
        (¬(∀ k ∈ updates.map Prod.fst, k ∈ userAllowedUpdates) →
          UserService.updateUser ctx db updates =
            (Except.error AppError.validation, db, 0))
        ∧ ((∀ k ∈ updates.map Prod.fst, k ∈ userAllowedUpdates) →
          (UserService.updateUser ctx db updates).2.2 = 1) := by
  refine ⟨rfl, ?_⟩
  intro updates hne
  have hemp : (updates.map Prod.fst).isEmpty = false := by
    cases hy : (updates.map Prod.fst).isEmpty
    · rfl
    · exact absurd (List.map_eq_nil_iff.mp (List.isEmpty_iff.mp hy)) hne
  constructor
  · intro hbad
    have hall : ((updates.map Prod.fst).all fun x => decide (x ∈ userAllowedUpdates)) = false := by
      cases hy : (updates.map Prod.fst).all fun x => decide (x ∈ userAllowedUpdates)
      · rfl
      · rw [List.all_eq_true] at hy
        refine absurd (fun k hk => ?_) hbad
        have := hy k hk
        simpa using this
    simp only [UserService.updateUser, hemp, hall]
    simp
  · intro hgood
    have hall : ((updates.map Prod.fst).all fun x => decide (x ∈ userAllowedUpdates)) = true := by
      rw [List.all_eq_true]
      intro k hk
      simpa using hgood k hk
    simp only [UserService.updateUser, hemp, hall]
    cases hrepo : UserRepository.updateById db ctx._id
        (UserUpdate.setProfile
          (if (updates.map Prod.fst).contains "password" then hashPasswordField updates
           else updates)) with
    | none => simp [hrepo]
    | some p => simp [hrepo]

/-- C10 witness: the empty body returns Alice's context object with no
repository call; the body `{ name: "Al" }` reaches the store with exactly
one repository call. -/
theorem claim_C10_witness :
    UserService.updateUser (UserService._transformUser userA) exDb [] =
      (Except.ok (UserService._transformUser userA), exDb, 0)
    ∧ UserService.updateUser (UserService._transformUser userA) exDb
        [("_id", Value.str "x")] = (Except.error AppError.validation, exDb, 0)
    ∧ (UserService.updateUser (UserService._transformUser userA) exDb
        [("name", Value.str "Al")]).2.2 = 1 :=
  ⟨(claim_C10 (UserService._transformUser userA) exDb).1,
   ((claim_C10 (UserService._transformUser userA) exDb).2
      [("_id", Value.str "x")] (by decide)).1 (by decide),
   ((claim_C10 (UserService._transformUser userA) exDb).2
      [("name", Value.str "Al")] (by decide)).2 (by decide)⟩

theorem cleanUser_no_sensitive (cu : CleanUser) :
    hasSensitiveKey cu.toFields = false := rfl

theorem user_has_sensitive (u : User) :
    hasSensitiveKey u.toFields = true := rfl

/-- C8 counterexample: account delete (`UserService.deleteUser`) returns
the repository's raw `toJSON` document to the caller layer; at this
concrete store the returned object carries the `password` and `tokens`
keys, so the claim that every listed operation strips them is false. -/
theorem claim_C8_counterexample :
    (UserService.deleteUser (UserService._transformUser userB) exDb).1 = Except.ok userB
    ∧ hasSensitiveKey userB.toFields = true :=
  ⟨rfl, rfl⟩

/-- C8 (amended): sign-up, login, logout, logout-all, profile read,
profile update, and avatar upload/delete all pass their principal through
`_transformUser`, so the object handed to the caller layer never carries
the `password` or `tokens` keys; account delete is the exception — it
returns the stored document itself (the `readById` image), whose
serialization does carry both sensitive keys. -/
theorem claim_C8 :
    (∀ (db : List User) (secret : Secret) (newId : DocId) (iat : Nat)
       (data : SignUpData) (cu : CleanUser) (tok : Token) (db1 : List User),
       UserService.signUpNewUser db secret newId iat data = (Except.ok (cu, tok), db1) →
       hasSensitiveKey cu.toFields = false)
    ∧ (∀ (db : List User) (secret : Secret) (iat : Nat) (email password : String)
         (cu : CleanUser) (tok : Token) (db1 : List User),
       UserService.loginUser db secret iat email password = (Except.ok (cu, tok), db1) →
       hasSensitiveKey cu.toFields = false)
    ∧ (∀ (ctx : CleanUser) (db : List User) (t : Token) (cu : CleanUser) (db1 : List User),
       UserService.logoutUser ctx db t = (Except.ok cu, db1) →
       hasSensitiveKey cu.toFields = false)
    ∧ (∀ (ctx : CleanUser) (db : List User) (cu : CleanUser) (db1 : List User),
       UserService.logoutUserAll ctx db = (Except.ok cu, db1) →
       hasSensitiveKey cu.toFields = false)
    ∧ (∀ (db : List User) (q : UserQuery) (cu : CleanUser),
       UserService.retrieveUserByQuery db q = Except.ok cu →
       hasSensitiveKey cu.toFields = false)
    ∧ (∀ (ctx : CleanUser) (db : List User) (updates : List (String × Value))
         (cu : CleanUser) (db1 : List User) (n : Nat),
       UserService.updateUser ctx db updates = (Except.ok cu, db1, n) →
       hasSensitiveKey cu.toFields = false)
    ∧ (∀ (ctx : CleanUser) (db : List User) (buf : Option String)
         (cu : CleanUser) (db1 : List User),
       UserService.uploadUserAvatar ctx db buf = (Except.ok cu, db1) →
       hasSensitiveKey cu.toFields = false)
    ∧ (∀ (ctx : CleanUser) (db : List User) (cu : CleanUser) (db1 : List User),
       UserService.deleteUserAvatar ctx db = (Except.ok cu, db1) →
       hasSensitiveKey cu.toFields = false)
    ∧ (∀ (ctx : CleanUser) (db : List User) (u : User) (db1 : List User),
       UserService.deleteUser ctx db = (Except.ok u, db1) →
       UserRepository.readById db ctx._id = some u ∧ hasSensitiveKey u.toFields = true) := by
  refine ⟨?_, ?_, ?_, ?_, ?_, ?_, ?_, ?_, ?_⟩
  · intro db secret newId iat data cu tok db1 h
    exact cleanUser_no_sensitive cu
  · intro db secret iat email password cu tok db1 h
    exact cleanUser_no_sensitive cu
  · intro ctx db t cu db1 h
    exact cleanUser_no_sensitive cu
  · intro ctx db cu db1 h
    exact cleanUser_no_sensitive cu
  · intro db q cu h
    exact cleanUser_no_sensitive cu
  · intro ctx db updates cu db1 n h
    exact cleanUser_no_sensitive cu
  · intro ctx db buf cu db1 h
    exact cleanUser_no_sensitive cu
  · intro ctx db cu db1 h
    exact cleanUser_no_sensitive cu
  · intro ctx db u db1 h
    unfold UserService.deleteUser UserRepository.deleteById at h
    unfold UserRepository.readById
    cases hfind : List.find? (fun x => decide (x._id = ctx._id)) db with
    | none => rw [hfind] at h; cases h
    | some v =>
      rw [hfind] at h
      simp only [Prod.mk.injEq, Except.ok.injEq] at h
      exact ⟨by rw [h.1], h.1 ▸ user_has_sensitive v⟩

/-- C8 witness: the profile-read path at a concrete store returns Alice's
transformed object, which carries no sensitive key. -/
theorem claim_C8_witness :
    hasSensitiveKey (UserService._transformUser userA).toFields = false :=
  claim_C8.2.2.2.2.1 exDb ⟨some "uA", none, none⟩ (UserService._transformUser userA) rfl
